import Mathlib

/-!
Verification of the Unknown-Pleasures audio visualizer (src/index.js, with
the variant script src/unnamed/part_001) against its specification.

Numeric model: the script's floating-point canvas arithmetic is embedded
over `ℚ`; the decimal literals 0.075, 0.6, 0.5, 0.025, 0.9 become the exact
rationals 3/40, 3/5, 1/2, 1/40, 9/10. `Math.sin(π * i / m)` is abstracted
as a parameter `env : ℕ → ℕ → ℚ` (`env i m` standing for sin(π·i/m));
theorems that depend on the sine's range carry the hypothesis that `env`
takes values in [0, 1], which the real sine satisfies on [0, π].
-/

/-- Constant `numberOfLines = 54` from src/index.js line 15. -/
def numberOfLines : ℕ := 54

/-- Constant `CANVAS_PADDING = 0.075` from src/index.js line 2. -/
def CANVAS_PADDING : ℚ := 3/40

/-- Constant `fadeOutDuration = 1500` (ms) from src/index.js line 102. -/
def fadeOutDuration : ℚ := 1500

/-- JavaScript storage of a nonnegative numeric value into a `Uint8Array`
slot: truncate to an integer (floor, as the value is nonnegative) and wrap
modulo 256. -/
def toUint8 (q : ℚ) : ℕ := (⌊q⌋).toNat % 256

/-- `makeSymmetric` from src/index.js lines 157-184: allocate a fresh
array, set `result[i] = dataArray[i] * sin(π * i/(L-1))` (stored as a
byte), then force the first and last entries to zero. The returned list is
the fresh `result`; the input is not written to. -/
def makeSymmetric (env : ℕ → ℕ → ℚ) (dataArray : List ℕ) : List ℕ :=
  let L := dataArray.length
  let result := (List.range L).map fun i =>
    toUint8 ((dataArray.getD i 0 : ℚ) * env i (L - 1))
  (result.set 0 0).set (L - 1) 0

/-- The everywhere-zero envelope, used as a concrete instance: it satisfies
the [0, 1] range bound that the real sine satisfies on [0, π]. -/
def envZ : ℕ → ℕ → ℚ := fun _ _ => 0

theorem envZ_bounded : ∀ i m : ℕ, 0 ≤ envZ i m ∧ envZ i m ≤ 1 := by
  intro i m
  constructor <;> simp [envZ]

theorem toUint8_le (q : ℚ) (n : ℕ) (h : q ≤ (n : ℚ)) : toUint8 q ≤ n := by
  have h1 : (⌊q⌋).toNat % 256 ≤ (⌊q⌋).toNat := Nat.mod_le _ _
  have h2 : ⌊q⌋ ≤ (n : ℤ) := by
    have := Int.floor_le_floor h
    simpa using this
  have h3 : (⌊q⌋).toNat ≤ n := by
    omega
  exact le_trans h1 h3

theorem makeSymmetric_length (env : ℕ → ℕ → ℚ) (F : List ℕ) :
    (makeSymmetric env F).length = F.length := by
  simp [makeSymmetric]

theorem makeSymmetric_getD (env : ℕ → ℕ → ℚ) (F : List ℕ) (i : ℕ)
    (hi : i < F.length) (h0 : i ≠ 0) (hl : i ≠ F.length - 1) :
    (makeSymmetric env F).getD i 0 =
      toUint8 ((F.getD i 0 : ℚ) * env i (F.length - 1)) := by
  simp only [makeSymmetric, List.getD_eq_getElem?_getD]
  rw [List.getElem?_set_ne (by omega), List.getElem?_set_ne (by omega)]
  rw [List.getElem?_map]
  simp [List.getElem?_range, hi]

theorem makeSymmetric_first (env : ℕ → ℕ → ℚ) (F : List ℕ)
    (hL : 2 ≤ F.length) :
    (makeSymmetric env F).getD 0 0 = 0 := by
  simp only [makeSymmetric, List.getD_eq_getElem?_getD]
  rw [List.getElem?_set_ne (by omega)]
  rw [List.getElem?_set_self]
  · simp
  · simpa using by omega

theorem makeSymmetric_last (env : ℕ → ℕ → ℚ) (F : List ℕ)
    (hL : 1 ≤ F.length) :
    (makeSymmetric env F).getD (F.length - 1) 0 = 0 := by
  simp only [makeSymmetric, List.getD_eq_getElem?_getD]
  rw [List.getElem?_set_self]
  · simp
  · simpa using by omega

/-- C1: for every frequency frame F of length L ≥ 2, `makeSymmetric`
returns an output of the same length whose first and last entries are 0,
whose interior entry i is F[i] scaled by the sine envelope at i/(L-1) and
stored as a byte, and which is pointwise at most the input. -/
theorem makeSymmetric_symmetry_spec (env : ℕ → ℕ → ℚ) (F : List ℕ)
    (hL : 2 ≤ F.length)
    (henv : ∀ i m : ℕ, 0 ≤ env i m ∧ env i m ≤ 1) :
    (makeSymmetric env F).length = F.length ∧
    (makeSymmetric env F).getD 0 0 = 0 ∧
    (makeSymmetric env F).getD (F.length - 1) 0 = 0 ∧
    (∀ i : ℕ, 0 < i → i < F.length - 1 →
      (makeSymmetric env F).getD i 0 =
        toUint8 ((F.getD i 0 : ℚ) * env i (F.length - 1))) ∧
    (∀ i : ℕ, i < F.length →
      (makeSymmetric env F).getD i 0 ≤ F.getD i 0) := by
  refine ⟨makeSymmetric_length env F, makeSymmetric_first env F hL,
    makeSymmetric_last env F (by omega), ?_, ?_⟩
  · intro i h1 h2
    exact makeSymmetric_getD env F i (by omega) (by omega) (by omega)
  · intro i hi
    by_cases h0 : i = 0
    · subst h0
      rw [makeSymmetric_first env F hL]
      exact Nat.zero_le _
    · by_cases hl : i = F.length - 1
      · rw [hl, makeSymmetric_last env F (by omega)]
        exact Nat.zero_le _
      · rw [makeSymmetric_getD env F i hi h0 hl]
        apply toUint8_le
        have henv' := henv i (F.length - 1)
        have hF0 : (0 : ℚ) ≤ (F.getD i 0 : ℚ) := by positivity
        calc (F.getD i 0 : ℚ) * env i (F.length - 1)
            ≤ (F.getD i 0 : ℚ) * 1 := by
              exact mul_le_mul_of_nonneg_left henv'.2 hF0
          _ = (F.getD i 0 : ℚ) := mul_one _

/-- Witness for C1 at the concrete frame [10, 20, 30]. -/
theorem makeSymmetric_symmetry_spec_witness :
    2 ≤ ([10, 20, 30] : List ℕ).length ∧
    (makeSymmetric envZ [10, 20, 30]).getD 0 0 = 0 ∧
    (makeSymmetric envZ [10, 20, 30]).getD 2 0 = 0 := by
  have h := makeSymmetric_symmetry_spec envZ [10, 20, 30] (by decide)
    envZ_bounded
  exact ⟨by decide, h.2.1, h.2.2.1⟩

/-- The history push step performed by `renderFrame` (src/index.js lines
310-318): `waveformHistory.unshift(frame)` followed by
`if (waveformHistory.length > numberOfLines) waveformHistory.pop()`. -/
def pushFrame (history : List (List ℕ)) (frame : List ℕ) : List (List ℕ) :=
  let h := frame :: history
  if numberOfLines < h.length then h.dropLast else h

/-- The waveform history produced by a whole run of sample pushes, oldest
first, starting from the empty `waveformHistory` of module load. -/
def pushAll (frames : List (List ℕ)) : List (List ℕ) :=
  frames.foldl pushFrame []

theorem pushFrame_of_le (history : List (List ℕ)) (frame : List ℕ)
    (h : history.length ≤ numberOfLines) :
    pushFrame history frame = (frame :: history).take numberOfLines := by
  by_cases hlt : history.length < numberOfLines
  · rw [pushFrame]
    simp only [List.length_cons]
    rw [if_neg (by omega)]
    have hle : (frame :: history).length ≤ numberOfLines := by
      simp only [List.length_cons]
      omega
    rw [List.take_of_length_le hle]
  · have heq : history.length = numberOfLines := by omega
    rw [pushFrame]
    simp only [List.length_cons]
    rw [if_pos (by omega)]
    rw [List.dropLast_eq_take]
    simp [heq]

theorem pushAll_eq (frames : List (List ℕ)) :
    pushAll frames = frames.reverse.take numberOfLines := by
  induction frames using List.reverseRecOn with
  | nil => rfl
  | append_singleton fs f ih =>
    have hstep : pushAll (fs ++ [f]) = pushFrame (pushAll fs) f := by
      simp [pushAll, List.foldl_append]
    rw [hstep, ih]
    rw [pushFrame_of_le _ _ (by simp [List.length_take])]
    rw [List.reverse_append]
    simp only [List.reverse_singleton, List.singleton_append]
    have h54 : numberOfLines = 53 + 1 := rfl
    rw [h54, List.take_succ_cons, List.take_succ_cons, List.take_take]
    norm_num

/-- C2: the waveform history never exceeds `numberOfLines = 54` entries;
after any run of pushes the history is exactly the last 54 frames in
newest-first order; entry 0 is always the most recently pushed frame; and
once 54 or more pushes have occurred, each further push evicts the oldest
(last) retained entry. -/
theorem waveformHistory_invariant (frames : List (List ℕ)) :
    numberOfLines = 54 ∧
    pushAll frames = frames.reverse.take numberOfLines ∧
    (pushAll frames).length ≤ numberOfLines ∧
    (∀ f : List ℕ, (pushAll (frames ++ [f])).headD [] = f) ∧
    (∀ f : List ℕ, numberOfLines ≤ frames.length →
      pushAll (frames ++ [f]) = f :: (pushAll frames).dropLast) := by
  refine ⟨rfl, pushAll_eq frames, ?_, ?_, ?_⟩
  · rw [pushAll_eq]
    simp [List.length_take]
  · intro f
    rw [pushAll_eq, List.reverse_append]
    simp only [List.reverse_singleton, List.singleton_append]
    have h54 : numberOfLines = 53 + 1 := rfl
    rw [h54, List.take_succ_cons]
    rfl
  · intro f hlen
    rw [pushAll_eq, pushAll_eq, List.reverse_append]
    simp only [List.reverse_singleton, List.singleton_append]
    have h54 : numberOfLines = 53 + 1 := rfl
    rw [h54, List.take_succ_cons, List.dropLast_eq_take]
    rw [List.length_take, List.take_take]
    have hlen' : frames.reverse.length = frames.length := by simp
    have hlen2 : 54 ≤ frames.length := hlen
    have hmin : min (min (53 + 1) frames.reverse.length - 1) (53 + 1) = 53 := by
      rw [hlen']
      omega
    rw [hmin]

/-- A canvas path command: `moveTo`, `lineTo`, or a quadratic curve
`quadraticCurveTo cx cy x y`. -/
inductive PathCmd where
  | moveTo (x y : ℚ)
  | lineTo (x y : ℚ)
  | quadTo (cx cy x y : ℚ)
  deriving DecidableEq, Repr

/-- One `ctx.beginPath() ... ctx.stroke()` group: the path, the stroke
opacity (the alpha of the white stroke style), and the line width. -/
structure StrokeCmd where
  path : List PathCmd
  opacity : ℚ
  lineWidth : ℚ
  deriving DecidableEq, Repr

/-- A draw call on the canvas: either the black full-canvas `fillRect` or a
stroked path. -/
inductive DrawCmd where
  | fillBlack
  | stroke (s : StrokeCmd)
  deriving DecidableEq, Repr

/-- `calculateWaveformY` from src/index.js lines 196-214. -/
def calculateWaveformY (env : ℕ → ℕ → ℚ) (baseY frequencyValue perspectiveScale : ℚ)
    (i totalPoints : ℕ) : ℚ :=
  baseY - frequencyValue * perspectiveScale * (1/2) * env i totalPoints

/-- The path built by the row-drawing loop shared by `drawWaveform`
(src/index.js lines 223-277), the inlined renderer row of
src/unnamed/part_001 (loop bound `bufferLength`), and the inlined fade row
of src/unnamed/part_001 (loop bound `historicalData.length`): the
parameter `n` is the loop bound and x/sine divisor; `data` is
`historicalData`. Point 0 moves to the baseline, the last point draws a
line to the baseline, interior points draw a quadratic curve through the
previous point to the midpoint of consecutive y values. -/
def rowPath (env : ℕ → ℕ → ℚ) (W H : ℚ) (n : ℕ) (data : List ℕ) (j : ℕ) :
    List PathCmd :=
  let padding := H * CANVAS_PADDING
  let usableHeight := H - padding * 2
  let baseY := H - padding - (j : ℚ) * (usableHeight / (numberOfLines : ℚ))
  let perspectiveScale := 1 - ((j : ℚ) / (numberOfLines : ℚ)) * (3/5)
  (List.range n).map fun (i : ℕ) =>
    let x := ((i : ℚ) / (n : ℚ)) * W
    let y := calculateWaveformY env baseY (data.getD i 0 : ℚ) perspectiveScale i n
    if i = 0 then PathCmd.moveTo x baseY
    else if i = n - 1 then PathCmd.lineTo x baseY
    else
      let prevX := (((i : ℚ) - 1) / (n : ℚ)) * W
      let prevY := calculateWaveformY env baseY (data.getD (i-1) 0 : ℚ)
        perspectiveScale (i-1) n
      let cpX := (x + prevX) / 2
      PathCmd.quadTo prevX prevY cpX ((y + prevY) / 2)

/-- `drawWaveform` from src/index.js lines 223-285: strokes the row path
with white at the given opacity and line width
`2 + (numberOfLines - j) * 0.025`. -/
def drawWaveform (env : ℕ → ℕ → ℚ) (W H : ℚ) (historicalData : List ℕ)
    (j : ℕ) (opacity : ℚ) : StrokeCmd :=
  { path := rowPath env W H historicalData.length historicalData j
    opacity := opacity
    lineWidth := 2 + ((numberOfLines : ℚ) - (j : ℚ)) * (1/40) }

/-- One renderer row of src/unnamed/part_001 `renderFrame` (lines
193-240): the loop runs over `bufferLength`, the stroke opacity is the
fixed 0.9, and the line width is `2 + (numberOfLines - j) * 0.025`. -/
def part1RenderRow (env : ℕ → ℕ → ℚ) (W H : ℚ) (bufferLength : ℕ)
    (data : List ℕ) (j : ℕ) : StrokeCmd :=
  { path := rowPath env W H bufferLength data j
    opacity := 9/10
    lineWidth := 2 + ((numberOfLines : ℚ) - (j : ℚ)) * (1/40) }

/-- One fade row of src/unnamed/part_001 `fadeOut` (lines 84-125): the
loop runs over `historicalData.length`, the stroke opacity is
`opacity * 0.9`, and the line width is the constant 3.5. -/
def part1FadeRow (env : ℕ → ℕ → ℚ) (W H : ℚ) (data : List ℕ) (j : ℕ)
    (opacity : ℚ) : StrokeCmd :=
  { path := rowPath env W H data.length data j
    opacity := opacity * (9/10)
    lineWidth := 7/2 }

/-- The draw calls of one sampling `renderFrame` pass (src/index.js lines
320-327): clear to black, then draw every history row at depth j with the
default opacity 0.9. -/
def renderFrame (env : ℕ → ℕ → ℚ) (W H : ℚ) (history : List (List ℕ)) :
    List DrawCmd :=
  DrawCmd.fillBlack ::
    (List.range history.length).map fun j =>
      DrawCmd.stroke (drawWaveform env W H (history.getD j []) j (9/10))

/-- The observable outcome of one `fadeOut` callback. -/
structure FadeOutput where
  opacity : ℚ
  commands : List DrawCmd
  history : List (List ℕ)
  reschedule : Bool
  deriving DecidableEq, Repr

/-- The `fadeOut` callback from src/index.js lines 105-132: compute
elapsed and opacity; when the duration has elapsed, paint black, clear the
live `waveformHistory`, and do not reschedule; otherwise paint black, draw
every snapshot row via `drawWaveform` at `opacity * 0.9`, leave the live
history alone, and reschedule. -/
def fadeOut (env : ℕ → ℕ → ℚ) (W H : ℚ) (startTime dur : ℚ)
    (snapshot live : List (List ℕ)) (t : ℚ) : FadeOutput :=
  let elapsed := t - startTime
  let opacity := max 0 (1 - elapsed / dur)
  if dur ≤ elapsed then
    { opacity := opacity
      commands := [DrawCmd.fillBlack]
      history := []
      reschedule := false }
  else
    { opacity := opacity
      commands := DrawCmd.fillBlack ::
        (List.range snapshot.length).map fun j =>
          DrawCmd.stroke
            (drawWaveform env W H (snapshot.getD j []) j (opacity * (9/10)))
      history := live
      reschedule := true }

/-- A pending fade-out callback chain: the captured `startTime` and the
snapshot `[...waveformHistory]` taken at stop (src/index.js lines
101-103). -/
structure Fade where
  startTime : ℚ
  snapshot : List (List ℕ)
  deriving DecidableEq, Repr

/-- The module-level mutable state of src/index.js together with the DOM
cells the script writes: the playing flag, the decoded buffer (abstracted
to an id), the live `waveformHistory`, the status text, the play-button
label and disabled flag, the hide-controls class, whether a source node is
connected and started, the stored animation-frame handle, the pending
fade-out chains (the script keeps no handle to them), the canvas contents
and its dimensions. -/
structure AppState where
  isPlaying : Bool
  audioBuffer : Option ℕ
  waveformHistory : List (List ℕ)
  statusText : String
  playButtonText : String
  playDisabled : Bool
  hideControls : Bool
  sourceActive : Bool
  animationFrameId : Option ℕ
  fades : List Fade
  canvas : List DrawCmd
  canvasW : ℚ
  canvasH : ℚ
  deriving DecidableEq, Repr

/-- The state at module load (src/index.js lines 11-20 and 335): nothing
playing, no buffer, empty history, play button disabled. -/
def initialState : AppState :=
  { isPlaying := false
    audioBuffer := none
    waveformHistory := []
    statusText := ""
    playButtonText := ""
    playDisabled := true
    hideControls := false
    sourceActive := false
    animationFrameId := none
    fades := []
    canvas := []
    canvasW := 100
    canvasH := 100 }

/-- `setupAndPlay` from src/index.js lines 80-150, the click handler
(toggle). Guard: with no buffer, write the not-loaded error to the status
text and return. Stop branch: stop and disconnect the source, cancel the
animation frame, clear the playing flag, reset the button label and
controls, and schedule a fade-out capturing `performance.now()` and a copy
of the current history. Start branch: connect and start a fresh source,
set the playing flag, update the UI, and start the render loop (which
stores a fresh animation-frame handle); no pending fade is cancelled, as
the script keeps no handle to fade callbacks. -/
def setupAndPlay (now : ℚ) (s : AppState) : AppState :=
  if s.audioBuffer = none then
    { s with statusText := "Error: Audio didn\x27t load" }
  else if s.isPlaying then
    { s with
      sourceActive := false
      animationFrameId := none
      isPlaying := false
      playButtonText := "INITIATE"
      hideControls := false
      fades := s.fades ++ [{ startTime := now, snapshot := s.waveformHistory }] }
  else
    { s with
      sourceActive := true
      isPlaying := true
      playButtonText := "TERMINATE"
      hideControls := true
      animationFrameId := some 0 }

/-- The outcome of `fetch(AUDIO_URL)` that `initAudio` inspects: the `ok`
flag and the numeric `status`. -/
structure FetchResponse where
  ok : Bool
  status : ℕ
  deriving DecidableEq, Repr

/-- The message of the error thrown on a failed fetch (src/index.js line
34): the template string built from the numeric status code. -/
def fetchFailMessage (status : ℕ) : String :=
  "Error: " ++ toString status

/-- `initAudio` from src/index.js lines 22-66, with the awaited fetch
response and the decoder outcome passed in. On a non-ok response the
thrown error's message is caught and written to the status text as
`Error: ${error.message}`; a decode rejection is reported the same way; on
success the buffer is stored, the status text reset, and the play button
enabled. The play button's disabled flag is only ever written on
success. -/
def initAudio (resp : FetchResponse) (decodeResult : Except String ℕ)
    (s : AppState) : AppState :=
  if resp.ok then
    match decodeResult with
    | Except.ok buf =>
      { s with
        statusText := "Unknown Pleasures"
        audioBuffer := some buf
        playDisabled := false
        playButtonText := "INITIATE" }
    | Except.error msg => { s with statusText := "Error: " ++ msg }
  else
    { s with statusText := "Error: " ++ fetchFailMessage resp.status }

/-- A mutation of the live `waveformHistory` that the script can perform
after a fade has been scheduled: a sampler push (unshift plus truncate,
src/index.js lines 310-318) or the end-of-fade clear (line 117). -/
inductive HistOp where
  | push (frame : List ℕ)
  | clear
  deriving DecidableEq, Repr

/-- Apply one history mutation to the application state. -/
def applyOp (s : AppState) : HistOp → AppState
  | HistOp.push f => { s with waveformHistory := pushFrame s.waveformHistory f }
  | HistOp.clear => { s with waveformHistory := [] }

/-- Apply a sequence of history mutations in order. -/
def applyOps (ops : List HistOp) (s : AppState) : AppState :=
  ops.foldl applyOp s

/-- One callback of the earliest pending fade chain, at the
application-state level: run `fadeOut` against the live state; its draw
calls replace the canvas contents, its history result is the live history
(cleared exactly at end of fade), and the chain is dropped when it does
not reschedule. -/
def fadeTick (env : ℕ → ℕ → ℚ) (dur t : ℚ) (s : AppState) : AppState :=
  match s.fades with
  | [] => s
  | f :: rest =>
    let out := fadeOut env s.canvasW s.canvasH f.startTime dur f.snapshot
      s.waveformHistory t
    { s with
      canvas := out.commands
      waveformHistory := out.history
      fades := if out.reschedule then f :: rest else rest }

/-- C3: with no audio buffer loaded, `setupAndPlay` writes the not-loaded
error to the status text and changes nothing else: the playing flag, the
history, the audio graph, the pending fades, the animation handle, the
canvas, and every UI control field are untouched. -/
theorem setupAndPlay_notLoaded (now : ℚ) (s : AppState)
    (h : s.audioBuffer = none) :
    setupAndPlay now s = { s with statusText := "Error: Audio didn\x27t load" } ∧
    (setupAndPlay now s).statusText = "Error: Audio didn\x27t load" ∧
    (setupAndPlay now s).isPlaying = s.isPlaying ∧
    (setupAndPlay now s).waveformHistory = s.waveformHistory ∧
    (setupAndPlay now s).sourceActive = s.sourceActive ∧
    (setupAndPlay now s).animationFrameId = s.animationFrameId ∧
    (setupAndPlay now s).fades = s.fades ∧
    (setupAndPlay now s).playButtonText = s.playButtonText ∧
    (setupAndPlay now s).playDisabled = s.playDisabled ∧
    (setupAndPlay now s).hideControls = s.hideControls ∧
    (setupAndPlay now s).canvas = s.canvas := by
  have hs : setupAndPlay now s = { s with statusText := "Error: Audio didn\x27t load" } := by
    rw [setupAndPlay, if_pos h]
  rw [hs]
  exact ⟨rfl, rfl, rfl, rfl, rfl, rfl, rfl, rfl, rfl, rfl, rfl⟩

/-- Witness for C3 at the module-load state. -/
theorem setupAndPlay_notLoaded_witness :
    initialState.audioBuffer = none ∧
    (setupAndPlay 0 initialState).statusText = "Error: Audio didn\x27t load" ∧
    (setupAndPlay 0 initialState).isPlaying = initialState.isPlaying := by
  have h := setupAndPlay_notLoaded 0 initialState rfl
  exact ⟨rfl, h.2.1, h.2.2.1⟩

/-- C4: on a non-ok fetch response, `initAudio` writes the caught error
message — which contains the numeric status code — to the status text,
leaves the play button disabled (it was disabled at module load and only a
successful load enables it), and stores no buffer. -/
theorem initAudio_fetch_failure (resp : FetchResponse)
    (decodeResult : Except String ℕ) (s : AppState)
    (hok : resp.ok = false) (hdis : s.playDisabled = true) :
    (initAudio resp decodeResult s).statusText =
      "Error: " ++ fetchFailMessage resp.status ∧
    (∃ pre post : String, (initAudio resp decodeResult s).statusText =
      pre ++ toString resp.status ++ post) ∧
    (initAudio resp decodeResult s).playDisabled = true ∧
    (initAudio resp decodeResult s).audioBuffer = s.audioBuffer := by
  have hs : initAudio resp decodeResult s =
      { s with statusText := "Error: " ++ fetchFailMessage resp.status } := by
    rw [initAudio.eq_def, hok]
    rfl
  rw [hs]
  refine ⟨rfl, ⟨"Error: Error: ", "", ?_⟩, hdis, rfl⟩
  show "Error: " ++ fetchFailMessage resp.status =
    "Error: Error: " ++ toString resp.status ++ ""
  rw [fetchFailMessage, String.append_empty, ← String.append_assoc]
  rfl

/-- Witness for C4 at a concrete 404 response. -/
theorem initAudio_fetch_failure_witness :
    (FetchResponse.mk false 404).ok = false ∧
    initialState.playDisabled = true ∧
    (initAudio (FetchResponse.mk false 404) (Except.error "boom")
      initialState).statusText = "Error: Error: 404" ∧
    (initAudio (FetchResponse.mk false 404) (Except.error "boom")
      initialState).playDisabled = true := by
  have h := initAudio_fetch_failure (FetchResponse.mk false 404)
    (Except.error "boom") initialState rfl rfl
  exact ⟨rfl, rfl, h.1, h.2.2.1⟩

/-- C5: on every `fadeOut` callback the computed opacity is
max(0, 1 - elapsed/duration), and as soon as elapsed reaches the duration
the callback paints only the solid black fill, clears the live waveform
history, and does not reschedule — for every snapshot. -/
theorem fadeOut_end_spec (env : ℕ → ℕ → ℚ) (W H startTime dur : ℚ)
    (snapshot live : List (List ℕ)) (t : ℚ) :
    (fadeOut env W H startTime dur snapshot live t).opacity =
      max 0 (1 - (t - startTime) / dur) ∧
    (dur ≤ t - startTime →
      (fadeOut env W H startTime dur snapshot live t).commands =
        [DrawCmd.fillBlack] ∧
      (fadeOut env W H startTime dur snapshot live t).history = [] ∧
      (fadeOut env W H startTime dur snapshot live t).reschedule = false) := by
  by_cases hd : dur ≤ t - startTime
  · unfold fadeOut
    refine ⟨by simp [if_pos hd], fun _ => ?_⟩
    simp [if_pos hd]
  · unfold fadeOut
    refine ⟨by simp [if_neg hd], fun h => absurd h hd⟩

/-- Witness for C5: a callback at exactly the 1500 ms duration. -/
theorem fadeOut_end_spec_witness :
    fadeOutDuration ≤ (1500 : ℚ) - 0 ∧
    (fadeOut envZ 100 100 0 fadeOutDuration [[1, 2], [3, 4]] [[5]]
      1500).commands = [DrawCmd.fillBlack] ∧
    (fadeOut envZ 100 100 0 fadeOutDuration [[1, 2], [3, 4]] [[5]]
      1500).history = [] ∧
    (fadeOut envZ 100 100 0 fadeOutDuration [[1, 2], [3, 4]] [[5]]
      1500).reschedule = false := by
  have ht : fadeOutDuration ≤ (1500 : ℚ) - 0 := by norm_num [fadeOutDuration]
  have h := (fadeOut_end_spec envZ 100 100 0 fadeOutDuration
    [[1, 2], [3, 4]] [[5]] 1500).2 ht
  exact ⟨ht, h.1, h.2.1, h.2.2⟩

theorem applyOps_fades (ops : List HistOp) (s : AppState) :
    (applyOps ops s).fades = s.fades := by
  induction ops generalizing s with
  | nil => rfl
  | cons op rest ih =>
    rw [applyOps, List.foldl_cons]
    rw [show List.foldl applyOp (applyOp s op) rest = applyOps rest (applyOp s op) from rfl]
    rw [ih]
    cases op <;> rfl

/-- C9: stopping playback appends a fade whose snapshot is the value of
the waveform history at the moment of the stop, and no sequence of later
live-history mutations (sampler pushes or the end-of-fade clear) changes
any pending fade's snapshot. -/
theorem stop_snapshot_immutable (now : ℚ) (s : AppState) (b : ℕ)
    (hb : s.audioBuffer = some b) (hp : s.isPlaying = true) :
    (setupAndPlay now s).fades =
      s.fades ++ [{ startTime := now, snapshot := s.waveformHistory }] ∧
    (∀ ops : List HistOp,
      (applyOps ops (setupAndPlay now s)).fades = (setupAndPlay now s).fades) := by
  have hs : (setupAndPlay now s).fades =
      s.fades ++ [{ startTime := now, snapshot := s.waveformHistory }] := by
    rw [setupAndPlay, if_neg (by simp [hb]), if_pos hp]
  exact ⟨hs, fun ops => applyOps_fades ops _⟩

/-- A concrete playing state with one pending fade, used by witnesses. -/
def playingState : AppState :=
  { isPlaying := true
    audioBuffer := some 1
    waveformHistory := [[7, 8], [9, 10]]
    statusText := "Unknown Pleasures"
    playButtonText := "TERMINATE"
    playDisabled := false
    hideControls := true
    sourceActive := true
    animationFrameId := some 3
    fades := []
    canvas := [DrawCmd.fillBlack]
    canvasW := 100
    canvasH := 100 }

/-- Witness for C9 at a concrete playing state. -/
theorem stop_snapshot_immutable_witness :
    playingState.audioBuffer = some 1 ∧
    playingState.isPlaying = true ∧
    (setupAndPlay 5 playingState).fades =
      [{ startTime := 5, snapshot := [[7, 8], [9, 10]] }] ∧
    (applyOps [HistOp.push [1], HistOp.clear] (setupAndPlay 5 playingState)).fades =
      (setupAndPlay 5 playingState).fades := by
  have h := stop_snapshot_immutable 5 playingState 1 rfl rfl
  exact ⟨rfl, rfl, h.1, h.2 [HistOp.push [1], HistOp.clear]⟩

/-- C10: restarting playback does not cancel a pending fade chain (the
start branch leaves the fade list untouched), and when a pending fade's
elapsed time reaches the duration its callback empties the now-live
waveform history and paints the canvas black even though the state is
playing. -/
theorem fade_survives_restart (env : ℕ → ℕ → ℚ) (dur now t : ℚ) (b : ℕ)
    (f : Fade) (rest : List Fade) (s s2 : AppState)
    (hb : s.audioBuffer = some b) (hnp : s.isPlaying = false)
    (hf : s2.fades = f :: rest) (ht : dur ≤ t - f.startTime) :
    (setupAndPlay now s).fades = s.fades ∧
    (setupAndPlay now s).isPlaying = true ∧
    (fadeTick env dur t s2).waveformHistory = [] ∧
    (fadeTick env dur t s2).canvas = [DrawCmd.fillBlack] ∧
    (fadeTick env dur t s2).isPlaying = s2.isPlaying ∧
    (fadeTick env dur t s2).fades = rest := by
  have hstart : setupAndPlay now s =
      { s with
        sourceActive := true
        isPlaying := true
        playButtonText := "TERMINATE"
        hideControls := true
        animationFrameId := some 0 } := by
    rw [setupAndPlay, if_neg (by simp [hb]), if_neg (by simp [hnp])]
  have hout : fadeOut env s2.canvasW s2.canvasH f.startTime dur f.snapshot
      s2.waveformHistory t =
      { opacity := max 0 (1 - (t - f.startTime) / dur)
        commands := [DrawCmd.fillBlack]
        history := []
        reschedule := false } := by
    unfold fadeOut
    rw [if_pos ht]
  have htick : fadeTick env dur t s2 =
      { s2 with
        canvas := [DrawCmd.fillBlack]
        waveformHistory := []
        fades := rest } := by
    rw [fadeTick, hf]
    simp only [hout]
    rfl
  rw [hstart, htick]
  exact ⟨rfl, rfl, rfl, rfl, rfl, rfl⟩

/-- A state that is playing again while one fade is still pending, used by
the C10 witness. -/
def restartedState : AppState :=
  { playingState with
    fades := [{ startTime := 2, snapshot := [[7, 8]] }]
    waveformHistory := [[1, 1], [2, 2]] }

/-- Witness for C10: a stopped-then-restarted run whose pending fade
expires while the state is playing. -/
theorem fade_survives_restart_witness :
    initialState.isPlaying = false ∧
    restartedState.fades = [{ startTime := 2, snapshot := [[7, 8]] }] ∧
    fadeOutDuration ≤ (2000 : ℚ) - 2 ∧
    (fadeTick envZ fadeOutDuration 2000 restartedState).waveformHistory = [] ∧
    (fadeTick envZ fadeOutDuration 2000 restartedState).canvas =
      [DrawCmd.fillBlack] ∧
    (fadeTick envZ fadeOutDuration 2000 restartedState).isPlaying = true := by
  have hb : ({ initialState with audioBuffer := some 1 } : AppState).audioBuffer
      = some 1 := rfl
  have ht : fadeOutDuration ≤ (2000 : ℚ) - 2 := by norm_num [fadeOutDuration]
  have h := fade_survives_restart envZ fadeOutDuration 0 2000 1
    { startTime := 2, snapshot := [[7, 8]] } []
    { initialState with audioBuffer := some 1 } restartedState hb rfl rfl ht
  exact ⟨rfl, rfl, ht, h.2.2.1, h.2.2.2.1, h.2.2.2.2.1⟩

/-- The call-level frame effect of `makeSymmetric` (src/index.js lines
157-184): the function allocates `result = new Uint8Array(dataArray.length)`
and writes only into `result`; `dataArray` receives no writes. The first
component is the input frame as left after the call, the second the
returned fresh array. -/
def makeSymmetricCall (env : ℕ → ℕ → ℚ) (dataArray : List ℕ) :
    List ℕ × List ℕ :=
  (dataArray, makeSymmetric env dataArray)

/-- A concrete envelope agreeing with sin(π·i/m) at i = 0, at i = m, and at
the midpoint 2i = m. -/
def envC7 : ℕ → ℕ → ℚ := fun i m => if 2 * i = m then 1 else 0

/-- Counterexample to C7: at the frame [10, 10, 10], the input frame left
after the call still holds [10, 10, 10], which differs from the symmetric
mountain shape [0, 10, 0] the call returns — the transform does not happen
in place. -/
theorem makeSymmetric_not_in_place :
    (makeSymmetricCall envC7 [10, 10, 10]).1 ≠
      (makeSymmetricCall envC7 [10, 10, 10]).2 := by decide

/-- C7 amended: `makeSymmetric` leaves its input frame unchanged and
returns a fresh array holding the symmetric mountain shape (endpoints
zero, interior sine-scaled and stored as bytes). -/
theorem makeSymmetricCall_fresh (env : ℕ → ℕ → ℚ) (F : List ℕ)
    (hL : 2 ≤ F.length) :
    (makeSymmetricCall env F).1 = F ∧
    (makeSymmetricCall env F).2 = makeSymmetric env F ∧
    (makeSymmetricCall env F).2.getD 0 0 = 0 ∧
    (makeSymmetricCall env F).2.getD (F.length - 1) 0 = 0 ∧
    (∀ i : ℕ, 0 < i → i < F.length - 1 →
      (makeSymmetricCall env F).2.getD i 0 =
        toUint8 ((F.getD i 0 : ℚ) * env i (F.length - 1))) := by
  refine ⟨rfl, rfl, makeSymmetric_first env F hL,
    makeSymmetric_last env F (by omega), ?_⟩
  intro i h1 h2
  exact makeSymmetric_getD env F i (by omega) (by omega) (by omega)

/-- Witness for the amended C7 at the frame [10, 10, 10]. -/
theorem makeSymmetricCall_fresh_witness :
    2 ≤ ([10, 10, 10] : List ℕ).length ∧
    (makeSymmetricCall envC7 [10, 10, 10]).1 = [10, 10, 10] ∧
    (makeSymmetricCall envC7 [10, 10, 10]).2.getD 0 0 = 0 := by
  have h := makeSymmetricCall_fresh envC7 [10, 10, 10] (by decide)
  exact ⟨by decide, h.1, h.2.2.1⟩

/-- The baseline of §4.4: canvasHeight − padding − j·(usableHeight/N), with
padding = canvasHeight·0.075 and usableHeight = canvasHeight − 2·padding. -/
def specBaseY (H : ℚ) (j : ℕ) : ℚ :=
  H - H * CANVAS_PADDING -
    (j : ℚ) * ((H - H * CANVAS_PADDING * 2) / (numberOfLines : ℚ))

/-- The perspective scale of §4.4: 1 − (j/N)·0.6. -/
def specScale (j : ℕ) : ℚ :=
  1 - ((j : ℚ) / (numberOfLines : ℚ)) * (3/5)

/-- The per-sample point of §4.4: baseline − value·scale·0.5·sin(π·i/len). -/
def specPointY (env : ℕ → ℕ → ℚ) (H : ℚ) (data : List ℕ) (j i : ℕ) : ℚ :=
  specBaseY H j - (data.getD i 0 : ℚ) * specScale j * (1/2) * env i data.length

theorem getD_map_range {α : Type} (n k : ℕ) (f : ℕ → α) (d : α)
    (h : k < n) : ((List.range n).map f).getD k d = f k := by
  rw [List.getD_eq_getElem?_getD, List.getElem?_map]
  simp [List.getElem?_range, h]

/-- C8: the row drawn at depth j by a render pass is `drawWaveform` at
depth j; its path starts at the baseline formula of §4.4; each interior
sample i is joined by a quadratic curve built from the point formula
baseline − value·perspectiveScale·0.5·sin(π·i/len); and the stroked line
width is strictly larger for rows nearer the front. -/
theorem renderer_geometry_spec (env : ℕ → ℕ → ℚ) (W H : ℚ)
    (history : List (List ℕ)) (data : List ℕ) (j j1 j2 i : ℕ) (op : ℚ)
    (hj : j < history.length) (hi0 : 0 < i) (hin : i + 1 < data.length)
    (hjj : j1 < j2) :
    (renderFrame env W H history).getD (j + 1) DrawCmd.fillBlack =
      DrawCmd.stroke (drawWaveform env W H (history.getD j []) j (9/10)) ∧
    (rowPath env W H data.length data j).getD 0 (PathCmd.moveTo 0 0) =
      PathCmd.moveTo 0 (specBaseY H j) ∧
    (rowPath env W H data.length data j).getD i (PathCmd.moveTo 0 0) =
      PathCmd.quadTo
        ((((i : ℚ) - 1) / (data.length : ℚ)) * W)
        (specPointY env H data j (i - 1))
        ((((i : ℚ) / (data.length : ℚ)) * W +
          (((i : ℚ) - 1) / (data.length : ℚ)) * W) / 2)
        ((specPointY env H data j i + specPointY env H data j (i - 1)) / 2) ∧
    (drawWaveform env W H data j1 op).lineWidth >
      (drawWaveform env W H data j2 op).lineWidth := by
  refine ⟨?_, ?_, ?_, ?_⟩
  · rw [renderFrame, List.getD_cons_succ]
    exact getD_map_range _ _ _ _ hj
  · rw [rowPath, getD_map_range _ _ _ _ (by omega)]
    simp [specBaseY]
  · rw [rowPath, getD_map_range _ _ _ _ (by omega)]
    simp only [if_neg (by omega : ¬ i = 0),
      if_neg (by omega : ¬ i = data.length - 1)]
    simp [calculateWaveformY, specPointY, specBaseY, specScale]
  · simp only [drawWaveform]
    have hc : (j1 : ℚ) < (j2 : ℚ) := by exact_mod_cast hjj
    have h40 : (0 : ℚ) < 1/40 := by norm_num
    simp only [gt_iff_lt]
    have : ((numberOfLines : ℚ) - (j2 : ℚ)) * (1/40) <
        ((numberOfLines : ℚ) - (j1 : ℚ)) * (1/40) := by
      apply mul_lt_mul_of_pos_right _ h40
      linarith
    linarith

/-- Witness for C8 at a two-row history and the frame [3, 4, 5]. -/
theorem renderer_geometry_spec_witness :
    (0 : ℕ) < ([[1], [2]] : List (List ℕ)).length ∧
    (0 : ℕ) < 1 ∧ 1 + 1 < ([3, 4, 5] : List ℕ).length ∧ (0 : ℕ) < 1 ∧
    (renderFrame envZ 100 100 [[1], [2]]).getD 1 DrawCmd.fillBlack =
      DrawCmd.stroke (drawWaveform envZ 100 100 [1] 0 (9/10)) ∧
    (drawWaveform envZ 100 100 [3, 4, 5] 0 1).lineWidth >
      (drawWaveform envZ 100 100 [3, 4, 5] 1 1).lineWidth := by
  have h := renderer_geometry_spec envZ 100 100 [[1], [2]] [3, 4, 5]
    0 0 1 1 1 (by decide) (by decide) (by decide) (by decide)
  exact ⟨by decide, by decide, by decide, by decide, h.1, h.2.2.2⟩

/-- Counterexample to C6: in the src/unnamed/part_001 variant the fade
strokes its rows with the constant line width 3.5, while the §4.4 renderer
of the same variant strokes the front row (j = 0) with width
2 + 54·0.025 = 3.35 — the widths differ, so the fade row is not rendered
exactly as the renderer renders it. -/
theorem part1_fade_width_counterexample :
    (part1FadeRow envZ 100 100 [0, 0, 0] 0 1).lineWidth ≠
      (part1RenderRow envZ 100 100 3 [0, 0, 0] 0).lineWidth := by
  simp only [part1FadeRow, part1RenderRow, numberOfLines]
  norm_num

/-- C6 amended: in src/index.js the fade renders every snapshot row through
the very `drawWaveform` of §4.4 — identical geometry and line width, only
the decayed opacity substituted — while in the src/unnamed/part_001
variant the fade row shares the renderer row's geometry (when the frame
length equals the analyser bin count) but is stroked at the constant line
width 3.5 instead of the renderer's depth-dependent width. -/
theorem fade_render_refinement (env : ℕ → ℕ → ℚ) (W H : ℚ)
    (snapshot live : List (List ℕ)) (startTime dur t : ℚ)
    (data : List ℕ) (n j : ℕ) (op a b : ℚ)
    (hn : data.length = n) (ht : t - startTime < dur) :
    (fadeOut env W H startTime dur snapshot live t).commands =
      DrawCmd.fillBlack :: ((List.range snapshot.length).map fun k =>
        DrawCmd.stroke (drawWaveform env W H (snapshot.getD k []) k
          ((max 0 (1 - (t - startTime) / dur)) * (9/10)))) ∧
    (drawWaveform env W H data j a).path =
      (drawWaveform env W H data j b).path ∧
    (drawWaveform env W H data j a).lineWidth =
      (drawWaveform env W H data j b).lineWidth ∧
    (part1FadeRow env W H data j op).path =
      (part1RenderRow env W H n data j).path ∧
    (part1FadeRow env W H data j op).opacity = op * (9/10) ∧
    (part1FadeRow env W H data j op).lineWidth = 7/2 := by
  refine ⟨?_, rfl, rfl, ?_, rfl, rfl⟩
  · unfold fadeOut
    rw [if_neg (by linarith : ¬ dur ≤ t - startTime)]
  · simp [part1FadeRow, part1RenderRow, hn]

/-- Witness for the amended C6 at a concrete mid-fade callback. -/
theorem fade_render_refinement_witness :
    ([1, 2, 3] : List ℕ).length = 3 ∧
    ((100 : ℚ) - 0 < 1500) ∧
    (part1FadeRow envZ 100 100 [1, 2, 3] 0 1).path =
      (part1RenderRow envZ 100 100 3 [1, 2, 3] 0).path ∧
    (part1FadeRow envZ 100 100 [1, 2, 3] 0 1).lineWidth = 7/2 := by
  have ht : (100 : ℚ) - 0 < 1500 := by norm_num
  have h := fade_render_refinement envZ 100 100 [[1]] [] 0 1500 100
    [1, 2, 3] 3 0 1 1 1 rfl ht
  exact ⟨rfl, ht, h.2.2.2.1, h.2.2.2.2.2⟩

/-- Witness for C2: a run of 55 pushes followed by one more, which evicts
the oldest retained entry. -/
theorem waveformHistory_invariant_witness :
    numberOfLines ≤ (List.replicate 55 ([1] : List ℕ)).length ∧
    (pushAll (List.replicate 55 ([1] : List ℕ))).length ≤ numberOfLines ∧
    pushAll (List.replicate 55 ([1] : List ℕ) ++ [[2]]) =
      [2] :: (pushAll (List.replicate 55 ([1] : List ℕ))).dropLast := by
  have h := waveformHistory_invariant (List.replicate 55 ([1] : List ℕ))
  exact ⟨by decide, h.2.2.1, h.2.2.2.2 [2] (by decide)⟩
